import Mathlib

/-!
Verification development for the DSTrade AlphaVantage client.

The definitions below are a shallow embedding of the repository's Python
source (`src/av_integration_api.py`, `src/av_integration.py`,
`src/av_integration_old.py`, `src/ds_trade/constants.py`).  Effectful
boundaries (HTTP GET, JSON parsing of the body, the raw-response archive
write) are passed in as an explicit `Transport` record of oracles; a raised
Python exception is modelled as `Except.error`, a normal return as
`Except.ok`.  DataFrames are modelled column-oriented with string-keyed
columns of cells; numeric dtype widths are carried as tags on the cells.
-/

/-- Option-valued traversal of a list, used to model fallible elementwise
operations (`pd.to_datetime` over an index, `astype` over a column): the
first failing element fails the whole operation. -/
def traverseOpt (f : α → Option β) : List α → Option (List β)
  | [] => some []
  | x :: xs =>
    match f x with
    | none => none
    | some y => (traverseOpt f xs).map (fun ys => y :: ys)

/-- Result inspection helpers for the `Except`-modelled Python calls. -/
def exceptIsOk : Except String α → Bool
  | .ok _ => true
  | .error _ => false

def exceptToOption : Except String α → Option α
  | .ok a => some a
  | .error _ => none

def exceptGetD (e : Except String α) (d : α) : α :=
  match e with
  | .ok a => a
  | .error _ => d

/-! ## Transport layer (`av_integration_api.py`)

`AlphaVantageAPIHandler._send_request` builds the query URL, performs the
GET (only the GET is inside the `try`), parses the body as JSON, optionally
writes the raw response to `saved_responses/`, and classifies the envelope
by its top-level keys.  The parsed JSON object is modelled as an ordered
association list of its top-level keys (the code only inspects keys and the
number of keys; nested values are opaque strings here). -/

abbrev ResponseData := List (String × String)

/-- Oracles for the effectful boundaries of one call: the HTTP GET
(`requests.get`), body-to-JSON parsing (`response.json()`), and the archive
file write (`open` + `json.dump`).  `Except.error` means the Python
operation raised. -/
structure Transport where
  get : String → Except String String
  parseJson : String → Except String ResponseData
  write : String → ResponseData → Except String Unit
  now_ms : Nat

def url_base : String := "https://www.alphavantage.co/"

def url_request : String := url_base ++ "query?"

/-- `request_url` as built in `_send_request`:
`url_request + "&".join([f"function={function}"] + request_args + [f"apikey={api_key}"])`. -/
def requestUrl (api_key function : String) (request_args : List String) : String :=
  url_request ++ String.intercalate "&"
    (("function=" ++ function) :: (request_args ++ ["apikey=" ++ api_key]))

/-- The exact membership test `_send_request` performs: the Python source
checks for the string `datatype="csv"` with the quotes included. -/
def csvSentinel : String := "datatype=\"csv\""

/-- Archive filename: `f"{get_utc_timestamp_ms()}" + "__" + "&".join([function] + request_args)`. -/
def savedFilename (now_ms : Nat) (function : String) (request_args : List String) : String :=
  toString now_ms ++ "__" ++ String.intercalate "&" (function :: request_args)

/-- `AlphaVantageAPIHandler._send_request`.  Logging calls are omitted (they
do not affect the returned value). -/
def send_request (t : Transport) (api_key function : String)
    (request_args : List String) (save_result : Bool) :
    Except String (Option ResponseData) :=
  if csvSentinel ∈ request_args then
    .error "NotImplementedError: Currently only JSON is supported!"
  else
    match t.get (requestUrl api_key function request_args) with
    | .error _ => .ok none
    | .ok body =>
      match t.parseJson body with
      | .error e => .error e
      | .ok response_data =>
        match (if save_result then
                 t.write (savedFilename t.now_ms function request_args) response_data
               else .ok ()) with
        | .error e => .error e
        | .ok _ =>
          if response_data.any (fun p => p.1 = "Information") then
            if response_data.length = 1 then .ok none
            else .error "AssertionError"
          else if response_data.any (fun p => p.1 = "Error Message") then
            if response_data.length = 1 then .ok none
            else .error "AssertionError: Error Message key but also other keys!"
          else .ok (some response_data)

/-- Helper mirroring the generated optional-argument fragments:
`[f"{name}={value}"] if value is not None else []`. -/
def optArg (name : String) : Option String → List String
  | some v => [name ++ "=" ++ v]
  | none => []

/-- Argument list built by `AlphaVantageAPIHandler.get_time_series_daily`.
The required parameter is emitted exactly as in the source: the plain
string literal `"symbol=symbol"` (the generated code does not interpolate
required parameters; optional ones use f-strings). -/
def get_time_series_daily_args (symbol : String) (outputsize datatype : Option String) :
    List String :=
  ["symbol=symbol"] ++ optArg "outputsize" outputsize ++ optArg "datatype" datatype

/-- Argument list built by `AlphaVantageAPIHandler.get_fx_daily`; required
parameters are again the plain literals from the source. -/
def get_fx_daily_args (from_symbol to_symbol : String) (outputsize datatype : Option String) :
    List String :=
  ["from_symbol=from_symbol", "to_symbol=to_symbol"]
    ++ optArg "outputsize" outputsize ++ optArg "datatype" datatype

/-- `AlphaVantageAPIHandler.get_time_series_daily` composed with
`_send_request`. -/
def get_time_series_daily (t : Transport) (api_key symbol : String)
    (outputsize datatype : Option String) (save_result : Bool) :
    Except String (Option ResponseData) :=
  send_request t api_key "TIME_SERIES_DAILY"
    (get_time_series_daily_args symbol outputsize datatype) save_result

/-! ## Module import guard and constructor (`av_integration_api.py` top level) -/

structure AlphaVantageAPIHandler where
  api_key : String
  handler_url_base : String
  handler_url_request : String
deriving DecidableEq

/-- `AlphaVantageAPIHandler.__init__`: stores the explicit `api_key`
argument and the URL constants; it never consults the environment. -/
def mkHandler (api_key : String) : AlphaVantageAPIHandler :=
  { api_key := api_key
  , handler_url_base := url_base
  , handler_url_request := url_base ++ "query?" }

/-- Module top level: `API_KEY_ALPHAVANTAGE = os.getenv(...)` followed by
`raise RuntimeError(...)` when the variable is absent.  `env_value` is the
result of the environment lookup after `load_dotenv()`. -/
def module_import_check (env_value : Option String) : Except String Unit :=
  match env_value with
  | none => .error "RuntimeError: missing Alphavantage api key in the environment variables"
  | some _ => .ok ()

/-- Constructing a client requires importing the module first (running the
import-time check), then calling the constructor with the explicit key. -/
def construct_handler (env_value : Option String) (api_key : String) :
    Except String AlphaVantageAPIHandler :=
  match module_import_check env_value with
  | .error e => .error e
  | .ok _ => .ok (mkHandler api_key)

/-! ## Timestamps and string parsing

`pd.to_datetime` over the index and the numeric `astype` casts are modelled
by explicit character-list parsers (structural recursion only, so that
concrete payloads evaluate inside the kernel).  A parsed numeric magnitude
is carried exactly as the scaled decimal `mant * 10 ^ exp10`; the 32-bit
widths required by the contract are carried as tags on the cell
constructors (`f32` / `i32`). -/

structure Timestamp where
  year : Nat
  month : Nat
  day : Nat
  hour : Nat
  minute : Nat
  second : Nat
deriving DecidableEq

/-- Total order key for timestamps (fields are radix-packed). -/
def Timestamp.key (t : Timestamp) : Nat :=
  ((((t.year * 100 + t.month) * 100 + t.day) * 100 + t.hour) * 100 + t.minute) * 100
    + t.second

def mkDate (y mo d : Nat) : Timestamp :=
  { year := y, month := mo, day := d, hour := 0, minute := 0, second := 0 }

/-- A decimal number `mant * 10 ^ exp10`, the exact value denoted by a
numeric string literal. -/
structure Dec where
  mant : Int
  exp10 : Int
deriving DecidableEq

def decOfInt (n : Int) : Dec := { mant := n, exp10 := 0 }

/-- Truncation toward zero, as numpy does when casting float to int. -/
def decTruncToInt (d : Dec) : Int :=
  if 0 ≤ d.exp10 then d.mant * (10 : Int) ^ d.exp10.toNat
  else Int.tdiv d.mant ((10 : Int) ^ (-d.exp10).toNat)

/-- Split a character list at every occurrence of `sep`. -/
def splitOnChar (sep : Char) : List Char → List (List Char)
  | [] => [[]]
  | c :: cs =>
    if c = sep then [] :: splitOnChar sep cs
    else
      match splitOnChar sep cs with
      | [] => [[c]]
      | w :: ws => (c :: w) :: ws

def digitsVal (cs : List Char) : Nat :=
  cs.foldl (fun a c => a * 10 + (c.toNat - 48)) 0

def parseNatDigitsL (cs : List Char) : Option Nat :=
  if cs.length > 0 && cs.all Char.isDigit then some (digitsVal cs) else none

def parseNatDigits (s : String) : Option Nat :=
  parseNatDigitsL s.toList

/-- The integer literals accepted by `int(...)` during `astype(np.int32)`. -/
def parseIntDigitsL (cs : List Char) : Option Int :=
  match cs with
  | '-' :: rest => (parseNatDigitsL rest).map (fun n => -(n : Int))
  | '+' :: rest => (parseNatDigitsL rest).map (fun n => (n : Int))
  | _ => (parseNatDigitsL cs).map (fun n => (n : Int))

def parseIntDigits (s : String) : Option Int :=
  parseIntDigitsL s.toList

/-- Date in `%Y-%m-%d` form (the explicit format used by the old client). -/
def parseDateYMDL (cs : List Char) : Option Timestamp :=
  match splitOnChar '-' cs with
  | [ys, ms, ds] =>
    match parseNatDigitsL ys, parseNatDigitsL ms, parseNatDigitsL ds with
    | some y, some mo, some d =>
      if 1 ≤ mo && mo ≤ 12 && 1 ≤ d && d ≤ 31 then some (mkDate y mo d) else none
    | _, _, _ => none
  | _ => none

def parseDateYMD (s : String) : Option Timestamp :=
  parseDateYMDL s.toList

def parseTimeHMSL (cs : List Char) : Option (Nat × Nat × Nat) :=
  match splitOnChar ':' cs with
  | [hs, ms, ss] =>
    match parseNatDigitsL hs, parseNatDigitsL ms, parseNatDigitsL ss with
    | some h, some mi, some sec =>
      if h < 24 && mi < 60 && sec < 60 then some (h, mi, sec) else none
    | _, _, _ => none
  | _ => none

/-- `pd.to_datetime(..., format="mixed")`: vendor keys are either a date or
a date plus a time of day. -/
def parseTimestampMixedL (cs : List Char) : Option Timestamp :=
  match splitOnChar ' ' cs with
  | [d] => parseDateYMDL d
  | [d, tm] =>
    match parseDateYMDL d, parseTimeHMSL tm with
    | some t, some (h, mi, sec) =>
      some { t with hour := h, minute := mi, second := sec }
    | _, _ => none
  | _ => none

def parseTimestampMixed (s : String) : Option Timestamp :=
  parseTimestampMixedL s.toList

def parseUnsignedDecimalL (cs : List Char) : Option Dec :=
  match splitOnChar '.' cs with
  | [ip] => (parseNatDigitsL ip).map (fun n => decOfInt (n : Int))
  | [ip, fp] =>
    if (ip.length + fp.length > 0) && ip.all Char.isDigit && fp.all Char.isDigit then
      some { mant := (digitsVal (ip ++ fp) : Int), exp10 := -(fp.length : Int) }
    else none
  | _ => none

/-- The decimal / scientific literals accepted by `float(...)` during
`astype(np.float32)`; the special literals (inf, nan) never occur in vendor
payloads and are not modelled. -/
def parseFloatCore (u : List Char) : Option Dec :=
  match splitOnChar 'e' (u.map (fun c => if c = 'E' then 'e' else c)) with
  | [m] => parseUnsignedDecimalL m
  | [m, ex] =>
    match parseUnsignedDecimalL m, parseIntDigitsL ex with
    | some d, some z => some { mant := d.mant, exp10 := d.exp10 + z }
    | _, _ => none
  | _ => none

def parseFloatStrL (cs : List Char) : Option Dec :=
  match cs with
  | '-' :: rest => (parseFloatCore rest).map (fun d => { mant := -d.mant, exp10 := d.exp10 })
  | '+' :: rest => parseFloatCore rest
  | _ => parseFloatCore cs

def parseFloatStr (s : String) : Option Dec :=
  parseFloatStrL s.toList

/-- One DataFrame cell.  `str` is an unconverted string, `f32`/`i32` carry
the 32-bit numeric dtype tags, `dt` a parsed datetime, `bool` a boolean,
`nan` a missing value. -/
inductive Cell where
  | str (s : String)
  | f32 (d : Dec)
  | i32 (n : Int)
  | dt (t : Timestamp)
  | bool (b : Bool)
  | nan
deriving DecidableEq

/-- `astype(np.float32)` on one cell. -/
def castF32Cell : Cell → Option Cell
  | .str s => (parseFloatStr s).map Cell.f32
  | .f32 d => some (.f32 d)
  | .i32 n => some (.f32 (decOfInt n))
  | .bool b => some (.f32 (decOfInt (if b then 1 else 0)))
  | .dt _ => none
  | .nan => some .nan

/-- `astype(np.int32)` on one cell; converting a missing value raises
(pandas: cannot convert non-finite values to integer). -/
def castI32Cell : Cell → Option Cell
  | .str s => (parseIntDigits s).map Cell.i32
  | .i32 n => some (.i32 n)
  | .f32 d => some (.i32 (decTruncToInt d))
  | .bool b => some (.i32 (if b then 1 else 0))
  | .dt _ => none
  | .nan => none

/-- `pd.to_datetime` on one cell of a column. -/
def toDatetimeCell : Cell → Option Cell
  | .str s => (parseTimestampMixed s).map Cell.dt
  | .dt t => some (.dt t)
  | .nan => some .nan
  | _ => none

def cellIsF32 : Cell → Bool
  | .f32 _ => true
  | _ => false

def cellIsI32 : Cell → Bool
  | .i32 _ => true
  | _ => false

def cellIsStr : Cell → Bool
  | .str _ => true
  | _ => false

def cellF32OrNan : Cell → Bool
  | .f32 _ => true
  | .nan => true
  | _ => false

/-! ## Column-oriented DataFrame construction

`pd.DataFrame.from_dict(..., orient="index")` / `from_records`: the columns
are the union of the per-record keys in first-seen order; a record missing
a key contributes a missing value. -/

abbrev Fields := List (String × String)

/-- Cell a record contributes to column `c` (missing key gives NaN). -/
def lookCell (fields : Fields) (c : String) : Cell :=
  match fields.find? (fun p => p.1 = c) with
  | some p => .str p.2
  | none => .nan

def insertKey (a : List String) (k : String) : List String :=
  if k ∈ a then a else a ++ [k]

def insertKeys (a : List String) (r : Fields) : List String :=
  r.foldl (fun acc p => insertKey acc p.1) a

/-- Union of record keys in first-seen order. -/
def unionKeys (rows : List Fields) : List String :=
  rows.foldl insertKeys []

/-- Columns of the constructed DataFrame. -/
def colsOfRecords (rows : List Fields) : List (String × List Cell) :=
  (unionKeys rows).map (fun c => (c, rows.map (fun r => lookCell r c)))

structure TSFrame where
  index : List Timestamp
  cols : List (String × List Cell)
deriving DecidableEq

structure OptFrame where
  indexCells : List Cell
  cols : List (String × List Cell)
deriving DecidableEq

def lookupCol (cols : List (String × List Cell)) (c : String) : Option (List Cell) :=
  (cols.find? (fun p => p.1 = c)).map Prod.snd

def removeCol (c : String) (cols : List (String × List Cell)) :
    List (String × List Cell) :=
  cols.filter (fun p => p.1 ≠ c)

/-- `df[c] = cells`: replace the column when present, else append it. -/
def setCol (cols : List (String × List Cell)) (c : String) (cells : List Cell) :
    List (String × List Cell) :=
  if c ∈ cols.map Prod.fst then
    cols.map (fun p => if p.1 = c then (c, cells) else p)
  else cols ++ [(c, cells)]

/-! ## `AlphaVantageHandler._candle_data_to_df` (`av_integration.py`) -/

def RAW_OHLC_FMT : List String := ["1. open", "2. high", "3. low", "4. close"]

def CANON_OHLC : List String := ["Open", "High", "Low", "Close"]

/-- The renamer map `{old: new for old, new in zip(ohlc_fmt, [...])}`. -/
def renameWith (fmt : List String) (c : String) : String :=
  match (fmt.zip CANON_OHLC).find? (fun p => p.1 = c) with
  | some p => p.2
  | none => c

def castColF32 (cells : List Cell) : Option (List Cell) :=
  traverseOpt castF32Cell cells

/-- One column under `astype(np.float32)`: cast the cells, keep the name. -/
def castColEntry (p : String × List Cell) : Option (String × List Cell) :=
  (castColF32 p.2).map (fun cs => (p.1, cs))

/-- `AlphaVantageHandler._candle_data_to_df`: empty input short-circuits to
an empty OHLC frame; otherwise build the frame from the timestamp-keyed
mapping, drop the `5. volume` column when present, parse the index
(`format="mixed"`), rename via the zip map, and `astype(np.float32)` every
remaining column.  No sorting is performed anywhere. -/
def candle_data_to_df (candle_data : List (String × Fields))
    (ohlc_fmt : Option (List String)) : Except String TSFrame :=
  if candle_data.length = 0 then
    .ok { index := [], cols := CANON_OHLC.map (fun c => (c, [])) }
  else
    let fmt := ohlc_fmt.getD RAW_OHLC_FMT
    let cols0 := colsOfRecords (candle_data.map Prod.snd)
    let cols1 := cols0.filter (fun p => p.1 ≠ "5. volume")
    match traverseOpt parseTimestampMixed (candle_data.map Prod.fst) with
    | none => .error "ValueError: unable to parse index as datetimes"
    | some idx =>
      let cols2 := cols1.map (fun p => (renameWith fmt p.1, p.2))
      match traverseOpt castColEntry cols2 with
      | none => .error "ValueError: could not convert string to float32"
      | some cols3 => .ok { index := idx, cols := cols3 }

/-! ## Old client daily normalizer
(`av_integration_old.py`, `AlphaVantageAPIHandler.get_time_series_daily`) -/

inductive CastKind where
  | f32
  | i32
deriving DecidableEq

def castCellKind : CastKind → Cell → Option Cell
  | .f32, c => castF32Cell c
  | .i32, c => castI32Cell c

def RAW_DAILY_FIELDS : List String :=
  ["1. open", "2. high", "3. low", "4. close", "5. volume"]

def DAILY_RENAME : List (String × String) :=
  [("1. open", "Open"), ("2. high", "High"), ("3. low", "Low"),
   ("4. close", "Close"), ("5. volume", "Volume")]

def renameDaily (c : String) : String :=
  match DAILY_RENAME.find? (fun p => p.1 = c) with
  | some p => p.2
  | none => c

def DAILY_ASTYPE : List (String × CastKind) :=
  [("Open", .f32), ("High", .f32), ("Low", .f32), ("Close", .f32), ("Volume", .i32)]

/-- One column under `df.astype(dtype_map)`: cast when the dtype map names
this column, keep it untouched otherwise. -/
def astypeEntry (spec : List (String × CastKind)) (p : String × List Cell) :
    Option (String × List Cell) :=
  match spec.find? (fun s => s.1 = p.1) with
  | some s => (traverseOpt (castCellKind s.2) p.2).map (fun cs => (p.1, cs))
  | none => some p

/-- `df.astype(dtype_map)`: raises when a named column is missing, casts
the named columns, leaves every other column untouched. -/
def astypeDict (spec : List (String × CastKind)) (cols : List (String × List Cell)) :
    Option (List (String × List Cell)) :=
  if spec.all (fun s => s.1 ∈ cols.map Prod.fst) then
    traverseOpt (astypeEntry spec) cols
  else none

/-- Normalization performed by the old client's `get_time_series_daily`
after the request returns: `from_dict(orient="index")`, strict `%Y-%m-%d`
index parse, rename to canonical names, then an `astype` dict casting the
four price columns to float32 and `Volume` to int32. -/
def get_time_series_daily_df (data : List (String × Fields)) : Except String TSFrame :=
  let cols0 := colsOfRecords (data.map Prod.snd)
  match traverseOpt parseDateYMD (data.map Prod.fst) with
  | none => .error "ValueError: time data does not match format Y-m-d"
  | some idx =>
    let cols1 := cols0.map (fun p => (renameDaily p.1, p.2))
    match astypeDict DAILY_ASTYPE cols1 with
    | none => .error "pandas astype raised: missing column or failed cast"
    | some cols2 => .ok { index := idx, cols := cols2 }

/-! ## Old client options normalizer
(`av_integration_old.py`, `AlphaVantageAPIHandler.get_historical_options`,
with `OPTIONS_COLUMNS` from `ds_trade/constants.py`) -/

def OPTIONS_COLUMNS : List String :=
  ["date", "expiration", "is_call", "strike", "mark", "bid", "ask",
   "implied_volatility", "delta", "gamma", "theta", "vega", "rho",
   "bid_size", "ask_size", "volume", "open_interest", "last"]

def FLOAT_COLS : List String :=
  ["strike", "last", "mark", "bid", "ask", "implied_volatility", "delta",
   "gamma", "theta", "vega", "rho"]

def INT_COLS : List String := ["bid_size", "ask_size", "volume", "open_interest"]

/-- One column of the final `df[OPTIONS_COLUMNS]` selection. -/
def selectEntry (cols : List (String × List Cell)) (c : String) :
    Option (String × List Cell) :=
  (lookupCol cols c).map (fun cells => (c, cells))

/-- Sequential `for col in cols: df[col] = df[col].astype(...)`; a missing
column or a failing cast raises. -/
def castCols (k : CastKind) : List String → List (String × List Cell) →
    Option (List (String × List Cell))
  | [], cols => some cols
  | c :: rest, cols =>
    match lookupCol cols c with
    | none => none
    | some cells =>
      match traverseOpt (castCellKind k) cells with
      | none => none
      | some cells2 => castCols k rest (setCol cols c cells2)

/-- Shaping performed by `get_historical_options` on the per-contract
records: flatten with `from_records`, `set_index("contractID")`, drop the
`symbol` column, parse the two date columns, cast the float and int column
sets, derive `is_call` from the `type` column, drop `type`, and select
exactly `OPTIONS_COLUMNS`. -/
def get_historical_options_df (records : List Fields) : Except String OptFrame :=
  let cols0 := colsOfRecords records
  match lookupCol cols0 "contractID" with
  | none => .error "KeyError: contractID"
  | some idx =>
    let cols1 := removeCol "contractID" cols0
    match lookupCol cols1 "symbol" with
    | none => .error "KeyError: symbol"
    | some _ =>
      let cols2 := removeCol "symbol" cols1
      match lookupCol cols2 "expiration" with
      | none => .error "KeyError: expiration"
      | some expCells =>
        match traverseOpt toDatetimeCell expCells with
        | none => .error "ValueError: expiration not parseable as datetimes"
        | some expCells2 =>
          let cols3 := setCol cols2 "expiration" expCells2
          match lookupCol cols3 "date" with
          | none => .error "KeyError: date"
          | some dateCells =>
            match traverseOpt toDatetimeCell dateCells with
            | none => .error "ValueError: date not parseable as datetimes"
            | some dateCells2 =>
              let cols4 := setCol cols3 "date" dateCells2
              match castCols .f32 FLOAT_COLS cols4 with
              | none => .error "pandas astype float32 raised"
              | some cols5 =>
                match castCols .i32 INT_COLS cols5 with
                | none => .error "pandas astype int32 raised"
                | some cols6 =>
                  match lookupCol cols6 "type" with
                  | none => .error "KeyError: type"
                  | some typeCells =>
                    let isCallCells :=
                      typeCells.map (fun c => Cell.bool (decide (c = Cell.str "call")))
                    let cols7 := setCol cols6 "is_call" isCallCells
                    let cols8 := removeCol "type" cols7
                    match traverseOpt (selectEntry cols8) OPTIONS_COLUMNS with
                    | none => .error "KeyError: column selection"
                    | some sel => .ok { indexCells := idx, cols := sel }

/-! ## Spec-side predicates -/

/-- Strictly ascending timestamps (the ordering property the spec asserts
of returned tables). -/
def strictAscend : List Timestamp → Bool
  | a :: b :: rest => (a.key < b.key) && strictAscend (b :: rest)
  | _ => true

/-- The typing contract the spec states for the old daily table: exactly
the canonical five columns, `Volume` all int32, price columns all float32. -/
def tsDailyWellTyped (df : TSFrame) : Bool :=
  decide (df.cols.map Prod.fst = ["Open", "High", "Low", "Close", "Volume"]) &&
  df.cols.all (fun p => if p.1 = "Volume" then p.2.all cellIsI32 else p.2.all cellIsF32)

/-- The shape contract the spec states for the options table. -/
def OptionsShapeSpec (records : List Fields) (df : OptFrame) : Prop :=
  df.cols.map Prod.fst = OPTIONS_COLUMNS ∧
  df.indexCells = records.map (fun r => lookCell r "contractID") ∧
  lookupCol df.cols "is_call" =
    some (records.map (fun r => Cell.bool (decide (lookCell r "type" = Cell.str "call")))) ∧
  (FLOAT_COLS.all (fun c =>
    match lookupCol df.cols c with
    | some cells => cells.all cellF32OrNan
    | none => false)) = true ∧
  (INT_COLS.all (fun c =>
    match lookupCol df.cols c with
    | some cells => cells.all cellIsI32
    | none => false)) = true ∧
  "type" ∉ df.cols.map Prod.fst

/-! ## Concrete fixtures used by individual theorems -/

/-- HTTP GET raises (network down); nothing else is reached. -/
def tNetDown : Transport :=
  { get := fun _ => .error "ConnectionError: network unreachable"
  , parseJson := fun _ => .error "unreachable"
  , write := fun _ _ => .ok ()
  , now_ms := 0 }

/-- Vendor replies with an Information-only envelope; archive write works. -/
def tInfoOk : Transport :=
  { get := fun _ => .ok "body"
  , parseJson := fun _ => .ok [("Information", "rate limit reached")]
  , write := fun _ _ => .ok ()
  , now_ms := 0 }

/-- Vendor replies with an Information-only envelope; archive write raises. -/
def tInfoWriteFail : Transport :=
  { get := fun _ => .ok "body"
  , parseJson := fun _ => .ok [("Information", "rate limit reached")]
  , write := fun _ _ => .error "FileNotFoundError: saved_responses does not exist"
  , now_ms := 0 }

/-- GET succeeds but the body is not JSON, so parsing raises. -/
def tParseFail : Transport :=
  { get := fun _ => .ok "<html>error page</html>"
  , parseJson := fun _ => .error "JSONDecodeError: Expecting value: line 1 column 1"
  , write := fun _ _ => .ok ()
  , now_ms := 0 }

def successPayload : ResponseData :=
  [("Meta Data", "meta"), ("Time Series (Daily)", "series")]

/-- Successful data envelope; archive write works. -/
def tDataOk : Transport :=
  { get := fun _ => .ok "body"
  , parseJson := fun _ => .ok successPayload
  , write := fun _ _ => .ok ()
  , now_ms := 0 }

/-- Successful data envelope; archive write raises. -/
def tDataWriteFail : Transport :=
  { get := fun _ => .ok "body"
  , parseJson := fun _ => .ok successPayload
  , write := fun _ _ => .error "PermissionError: cannot write saved_responses"
  , now_ms := 0 }

/-- A daily candle payload whose keys arrive newest-first, as the vendor
actually sends them. -/
def descCandles : List (String × Fields) :=
  [("2024-01-02",
    [("1. open", "1.0"), ("2. high", "2.0"), ("3. low", "0.5"), ("4. close", "1.5"),
     ("5. volume", "100")]),
   ("2024-01-01",
    [("1. open", "1.1"), ("2. high", "2.1"), ("3. low", "0.6"), ("4. close", "1.6"),
     ("5. volume", "200")])]

/-- A daily candle payload with ascending keys. -/
def dailyCandles : List (String × Fields) :=
  [("2024-01-01",
    [("1. open", "1.0"), ("2. high", "2.0"), ("3. low", "0.5"), ("4. close", "1.5"),
     ("5. volume", "100")]),
   ("2024-01-02",
    [("1. open", "1.5"), ("2. high", "2.5"), ("3. low", "1.0"), ("4. close", "2.0"),
     ("5. volume", "200")])]

def emptyTS : TSFrame := { index := [], cols := [] }

def dfDesc : TSFrame := exceptGetD (candle_data_to_df descCandles none) emptyTS

def dfCandles : TSFrame := exceptGetD (candle_data_to_df dailyCandles none) emptyTS

def dfDaily : TSFrame := exceptGetD (get_time_series_daily_df dailyCandles) emptyTS

/-- One vendor options contract record with every field the shaping code
touches. -/
def optRecords : List Fields :=
  [[("contractID", "IBM240119C00100000"), ("symbol", "IBM"),
    ("expiration", "2024-01-19"), ("strike", "100.0"), ("type", "call"),
    ("last", "1.5"), ("mark", "1.6"), ("bid", "1.4"), ("bid_size", "10"),
    ("ask", "1.7"), ("ask_size", "12"), ("volume", "100"),
    ("open_interest", "200"), ("date", "2024-01-02"),
    ("implied_volatility", "0.25"), ("delta", "0.5"), ("gamma", "0.1"),
    ("theta", "-0.05"), ("vega", "0.2"), ("rho", "0.01")]]

def emptyOpt : OptFrame := { indexCells := [], cols := [] }

def dfOptions : OptFrame := exceptGetD (get_historical_options_df optRecords) emptyOpt

/-- A candle record whose open price is not a numeric string. -/
def badFields : Fields :=
  [("1. open", "abc"), ("2. high", "2.0"), ("3. low", "0.5"), ("4. close", "1.5"),
   ("5. volume", "100")]

def badCandles : List (String × Fields) := [("2024-01-01", badFields)]

/-- A candle record whose volume is not an integer string. -/
def badVolFields : Fields :=
  [("1. open", "1.0"), ("2. high", "2.0"), ("3. low", "0.5"), ("4. close", "1.5"),
   ("5. volume", "12.5")]

def badVolCandles : List (String × Fields) := [("2024-01-01", badVolFields)]

/-- The dtype a successful `castCellKind` guarantees: float32 casting
yields float32 or keeps NaN; int32 casting always yields int32. -/
def castOutOk : CastKind → Cell → Bool
  | .f32, x => cellF32OrNan x
  | .i32, x => cellIsI32 x

theorem traverseOpt_eq_some_iff (f : α → Option β) :
    ∀ (l : List α) (l2 : List β),
      traverseOpt f l = some l2 ↔ List.Forall₂ (fun a b => f a = some b) l l2
  | [], l2 => by cases l2 <;> simp [traverseOpt]
  | x :: xs, l2 => by
    cases hfx : f x with
    | none =>
      cases l2 <;> simp [traverseOpt, hfx, List.forall₂_cons]
    | some y =>
      cases l2 with
      | nil =>
        simp [traverseOpt, hfx, Option.map_eq_some', List.forall₂_nil_right_iff]
      | cons z zs =>
        simp only [traverseOpt, hfx, Option.map_eq_some', List.forall₂_cons,
          traverseOpt_eq_some_iff f xs, Option.some.injEq, List.cons.injEq,
          exists_eq_right_right]
        exact and_comm


theorem traverseOpt_none_of_mem (f : α → Option β) (l : List α) (x : α)
    (hx : x ∈ l) (hfx : f x = none) : traverseOpt f l = none := by
  induction l with
  | nil => cases hx
  | cons y ys ih =>
    simp only [traverseOpt]
    rcases List.mem_cons.mp hx with rfl | hmem
    · rw [hfx]
    · cases hfy : f y with
      | none => rfl
      | some z => rw [ih hmem]; rfl


theorem traverseOpt_mem_some (f : α → Option β) :
    ∀ (l : List α) (l2 : List β), traverseOpt f l = some l2 →
      ∀ y ∈ l2, ∃ x ∈ l, f x = some y
  | [], l2, h, y, hy => by
    simp only [traverseOpt, Option.some.injEq] at h
    subst h
    cases hy
  | x :: xs, l2, h, y, hy => by
    revert h
    cases hfx : f x with
    | none =>
      intro h
      simp [traverseOpt, hfx] at h
    | some z =>
      intro h
      simp only [traverseOpt, hfx, Option.map_eq_some'] at h
      obtain ⟨a, ha, rfl⟩ := h
      rcases List.mem_cons.mp hy with rfl | hmem
      · exact ⟨x, List.mem_cons_self x xs, hfx⟩
      · obtain ⟨w, hw, hfw⟩ := traverseOpt_mem_some f xs a ha y hmem
        exact ⟨w, List.mem_cons_of_mem x hw, hfw⟩


theorem exceptToOption_eq_some (e : Except String α) (a : α)
    (h : exceptToOption e = some a) : e = .ok a := by
  cases e with
  | ok b => cases h; rfl
  | error m => cases h

/-! ## C1: required endpoint parameters -/

/-- C1 (code_bug): the generated endpoint methods do not interpolate the
caller-supplied values of required parameters.  `get_time_series_daily`
contributes the fixed literal fragment `symbol=symbol` for every symbol
(so two different symbols produce identical argument lists, and the
fragment `symbol=IBM` never appears), while optional parameters are
interpolated correctly; `get_fx_daily` behaves the same way. -/
theorem required_params_are_fixed_literals :
    get_time_series_daily_args "IBM" none none = ["symbol=symbol"] ∧
    get_time_series_daily_args "MSFT" none none =
      get_time_series_daily_args "IBM" none none ∧
    get_time_series_daily_args "IBM" (some "full") none =
      ["symbol=symbol", "outputsize=full"] ∧
    "symbol=IBM" ∉ get_time_series_daily_args "IBM" (some "full") none ∧
    get_fx_daily_args "EUR" "USD" none none =
      ["from_symbol=from_symbol", "to_symbol=to_symbol"] := by
  refine ⟨rfl, rfl, rfl, ?_, rfl⟩
  decide

/-! ## C3: the CSV guard -/

/-- C3 (code_bug): a caller requesting CSV output through an endpoint method
(`datatype="csv"` as the Python keyword argument) produces the fragment
`datatype=csv`, which does not match the quoted sentinel the guard tests
for; the call therefore does not raise but proceeds to the HTTP GET (here
the GET fails, and the call returns the absent result of the caught network
error instead of the NotImplementedError the guard would have raised). -/
theorem csv_request_not_rejected_before_get :
    get_time_series_daily_args "IBM" none (some "csv") =
      ["symbol=symbol", "datatype=csv"] ∧
    csvSentinel ∉ get_time_series_daily_args "IBM" none (some "csv") ∧
    get_time_series_daily tNetDown "demo" "IBM" none (some "csv") true = .ok none := by
  refine ⟨rfl, by decide, rfl⟩

/-! ## C2: soft-error envelopes -/

/-- C2 (counterexample): a response whose only key is `Information` does not
always yield an absent result — when the archive write raises (the write is
not guarded by any try/except and happens before classification), the call
raises instead of returning None. -/
theorem soft_error_raises_on_write_failure :
    tInfoWriteFail.parseJson "body" = .ok [("Information", "rate limit reached")] ∧
    send_request tInfoWriteFail "demo" "TIME_SERIES_DAILY" [] true =
      .error "FileNotFoundError: saved_responses does not exist" :=
  ⟨rfl, rfl⟩

/-- C2 (corrected): provided the optional archive write is disabled or
succeeds, a parsed response whose only key is `Information` or
`Error Message` always yields `None` and never raises (the defensive
single-key assertion passes). -/
theorem soft_error_singleton_returns_none
    (t : Transport) (api_key function : String) (request_args : List String)
    (save_result : Bool) (body k v : String)
    (hcsv : csvSentinel ∉ request_args)
    (hget : t.get (requestUrl api_key function request_args) = .ok body)
    (hparse : t.parseJson body = .ok [(k, v)])
    (hk : k = "Information" ∨ k = "Error Message")
    (hw : save_result = false ∨
      t.write (savedFilename t.now_ms function request_args) [(k, v)] = .ok ()) :
    send_request t api_key function request_args save_result = .ok none := by
  have hwstep : (if save_result then
      t.write (savedFilename t.now_ms function request_args) [(k, v)]
    else Except.ok ()) = Except.ok () := by
    cases save_result with
    | false => rfl
    | true =>
      rcases hw with h | h
      · simp at h
      · exact h
  rcases hk with rfl | rfl <;>
    simp [send_request, hcsv, hget, hparse, hwstep]

/-- Witness for the corrected C2 statement at a concrete transport. -/
theorem soft_error_singleton_returns_none_witness :
    send_request tInfoOk "demo" "TIME_SERIES_DAILY" [] true = .ok none :=
  soft_error_singleton_returns_none tInfoOk "demo" "TIME_SERIES_DAILY" [] true
    "body" "Information" "rate limit reached" (by simp) rfl rfl
    (Or.inl rfl) (Or.inr rfl)

/-! ## C5: exception handling around the GET and the JSON parse -/

/-- C5 (counterexample): an exception raised while parsing the response
body as JSON is not caught (only the GET sits inside the try block); it
propagates to the caller instead of becoming an absent result. -/
theorem parse_exception_propagates :
    tParseFail.parseJson "<html>error page</html>" =
      .error "JSONDecodeError: Expecting value: line 1 column 1" ∧
    send_request tParseFail "demo" "TIME_SERIES_DAILY" [] true =
      .error "JSONDecodeError: Expecting value: line 1 column 1" :=
  ⟨rfl, rfl⟩

/-- C5 (corrected): an exception raised by the HTTP GET itself is caught
inside the transport layer and surfaced as an absent result; only JSON
parse exceptions escape. -/
theorem get_exception_returns_none
    (t : Transport) (api_key function : String) (request_args : List String)
    (save_result : Bool) (e : String)
    (hcsv : csvSentinel ∉ request_args)
    (hget : t.get (requestUrl api_key function request_args) = .error e) :
    send_request t api_key function request_args save_result = .ok none := by
  simp [send_request, hcsv, hget]

/-- Witness for the corrected C5 statement at a concrete transport. -/
theorem get_exception_returns_none_witness :
    send_request tNetDown "demo" "TIME_SERIES_DAILY" [] true = .ok none :=
  get_exception_returns_none tNetDown "demo" "TIME_SERIES_DAILY" [] true
    "ConnectionError: network unreachable" (by simp) rfl

/-! ## C6: the archive write side effect -/

/-- C6 (counterexample): when the archive write raises, the call raises too
instead of returning the classified result it returns when the write is
skipped — the write is not protected by any exception handler. -/
theorem archive_write_failure_fails_call :
    send_request tDataWriteFail "demo" "TIME_SERIES_DAILY" [] true =
      .error "PermissionError: cannot write saved_responses" ∧
    send_request tDataWriteFail "demo" "TIME_SERIES_DAILY" [] false =
      .ok (some successPayload) :=
  ⟨rfl, rfl⟩

/-- C6 (corrected): the classified result is unaffected by the archive side
effect only when the write succeeds: with a succeeding write, a call with
saving enabled returns exactly what the same call returns with saving
disabled. -/
theorem archive_write_ok_preserves_result
    (t : Transport) (api_key function : String) (request_args : List String)
    (body : String) (rd : ResponseData)
    (hcsv : csvSentinel ∉ request_args)
    (hget : t.get (requestUrl api_key function request_args) = .ok body)
    (hparse : t.parseJson body = .ok rd)
    (hw : t.write (savedFilename t.now_ms function request_args) rd = .ok ()) :
    send_request t api_key function request_args true =
      send_request t api_key function request_args false := by
  simp [send_request, hcsv, hget, hparse, hw]

/-- Witness for the corrected C6 statement at a concrete transport. -/
theorem archive_write_ok_preserves_result_witness :
    send_request tDataOk "demo" "TIME_SERIES_DAILY" [] true =
      send_request tDataOk "demo" "TIME_SERIES_DAILY" [] false :=
  archive_write_ok_preserves_result tDataOk "demo" "TIME_SERIES_DAILY" []
    "body" successPayload (by simp) rfl rfl rfl

/-! ## C10: import-time API-key guard -/

/-- C10 (confirmed): importing the API module raises RuntimeError exactly
when the environment variable is unset, so no client can be constructed
without it; with the variable set construction always succeeds, and the
constructor itself never reads the variable (its result depends only on
the explicit api_key argument). -/
theorem import_guard_controls_construction :
    (∀ k, construct_handler none k =
      .error "RuntimeError: missing Alphavantage api key in the environment variables") ∧
    (∀ v k, construct_handler (some v) k = .ok (mkHandler k)) ∧
    (∀ v w k, construct_handler (some v) k = construct_handler (some w) k) :=
  ⟨fun _ => rfl, fun _ _ => rfl, fun _ _ _ => rfl⟩

/-! ## C4: row ordering of the candle normalizer -/

/-- C4 (counterexample): a payload whose keys arrive newest-first is
normalized successfully into a table whose index is *descending*, not
ascending — no sort is applied. -/
theorem candle_df_not_sorted_counterexample :
    exceptIsOk (candle_data_to_df descCandles none) = true ∧
    dfDesc.index = [mkDate 2024 1 2, mkDate 2024 1 1] ∧
    strictAscend dfDesc.index = false :=
  ⟨rfl, rfl, rfl⟩

/-- C4 (corrected): the rows of every successful normalization appear in
the insertion order of the vendor payload keys — the index is the
elementwise parse of the keys in their original order, with no sorting. -/
theorem candle_df_index_is_insertion_order
    (candle_data : List (String × Fields)) (ohlc_fmt : Option (List String))
    (df : TSFrame)
    (h : candle_data_to_df candle_data ohlc_fmt = .ok df) :
    traverseOpt parseTimestampMixed (candle_data.map Prod.fst) = some df.index := by
  simp only [candle_data_to_df] at h
  by_cases hlen : candle_data.length = 0
  · rw [if_pos hlen] at h
    obtain rfl : candle_data = [] := List.length_eq_zero.mp hlen
    injection h with h2
    subst h2
    rfl
  · rw [if_neg hlen] at h
    split at h
    · simp at h
    · rename_i idx hidx
      split at h
      · simp at h
      · rename_i cols3 hcast
        injection h with h2
        subst h2
        exact hidx

/-- Witness for the corrected C4 statement at a concrete payload. -/
theorem candle_df_index_is_insertion_order_witness :
    traverseOpt parseTimestampMixed (descCandles.map Prod.fst) = some dfDesc.index :=
  candle_df_index_is_insertion_order descCandles none dfDesc rfl

/-! ## Generic lemmas about the DataFrame construction helpers -/

theorem forall2_mem_right {R : α → β → Prop} (l : List α) (l2 : List β)
    (h : List.Forall₂ R l l2) : ∀ y ∈ l2, ∃ x ∈ l, R x y := by
  induction h with
  | nil => intro y hy; cases hy
  | cons hab hrest ih =>
    intro y hy
    rcases List.mem_cons.mp hy with rfl | hmem
    · exact ⟨_, List.mem_cons_self _ _, hab⟩
    · obtain ⟨x, hx, hR⟩ := ih y hmem
      exact ⟨x, List.mem_cons_of_mem _ hx, hR⟩

theorem traverseOpt_fst_eq {fn : (String × List Cell) → Option (String × List Cell)}
    (hfn : ∀ p q, fn p = some q → q.1 = p.1) (cols cols2 : List (String × List Cell))
    (h : traverseOpt fn cols = some cols2) :
    cols2.map Prod.fst = cols.map Prod.fst := by
  have h2 := (traverseOpt_eq_some_iff fn cols cols2).mp h
  clear h
  induction h2 with
  | nil => rfl
  | cons hab hrest ih =>
    simp only [List.map_cons, hfn _ _ hab, ih]

theorem mem_insertKey (a : List String) (k k2 : String) :
    k2 ∈ insertKey a k ↔ k2 ∈ a ∨ k2 = k := by
  unfold insertKey
  by_cases hk : k ∈ a
  · rw [if_pos hk]
    constructor
    · exact Or.inl
    · rintro (h | rfl)
      · exact h
      · exact hk
  · rw [if_neg hk]
    simp [List.mem_append]

theorem insertKeys_cons (a : List String) (p : String × String) (r : Fields) :
    insertKeys a (p :: r) = insertKeys (insertKey a p.1) r := rfl

theorem mem_insertKeys_left (r : Fields) :
    ∀ (a : List String) (k : String), k ∈ a → k ∈ insertKeys a r := by
  induction r with
  | nil => intro a k hk; exact hk
  | cons p r ih =>
    intro a k hk
    rw [insertKeys_cons]
    exact ih _ _ ((mem_insertKey a p.1 k).mpr (Or.inl hk))

theorem mem_insertKeys_of_mem (r : Fields) :
    ∀ (a : List String) (p : String × String), p ∈ r → p.1 ∈ insertKeys a r := by
  induction r with
  | nil => intro a p hp; cases hp
  | cons q r ih =>
    intro a p hp
    rw [insertKeys_cons]
    rcases List.mem_cons.mp hp with rfl | hmem
    · exact mem_insertKeys_left r _ _ ((mem_insertKey a p.1 p.1).mpr (Or.inr rfl))
    · exact ih _ _ hmem

theorem unionKeys_cons (r : Fields) (rows : List Fields) :
    unionKeys (r :: rows) = rows.foldl insertKeys (insertKeys [] r) := rfl

theorem mem_foldl_insertKeys (rows : List Fields) :
    ∀ (a : List String) (k : String),
      (k ∈ a ∨ ∃ r ∈ rows, ∃ p ∈ r, p.1 = k) → k ∈ rows.foldl insertKeys a := by
  induction rows with
  | nil =>
    intro a k h
    rcases h with h | ⟨r, hr, _⟩
    · exact h
    · cases hr
  | cons r rows ih =>
    intro a k h
    rw [List.foldl_cons]
    rcases h with h | ⟨r2, hr2, p, hp, rfl⟩
    · exact ih _ _ (Or.inl (mem_insertKeys_left r _ _ h))
    · rcases List.mem_cons.mp hr2 with rfl | hmem
      · exact ih _ _ (Or.inl (mem_insertKeys_of_mem _ _ _ hp))
      · exact ih _ _ (Or.inr ⟨r2, hmem, p, hp, rfl⟩)

theorem mem_unionKeys (rows : List Fields) (r : Fields) (p : String × String)
    (hr : r ∈ rows) (hp : p ∈ r) : p.1 ∈ unionKeys rows :=
  mem_foldl_insertKeys rows [] p.1 (Or.inr ⟨r, hr, p, hp, rfl⟩)

theorem insertKeys_of_subset (r : Fields) :
    ∀ (a : List String), (∀ p ∈ r, p.1 ∈ a) → insertKeys a r = a := by
  induction r with
  | nil => intro a _; rfl
  | cons p r ih =>
    intro a h
    rw [insertKeys_cons]
    have hkey : insertKey a p.1 = a := by
      unfold insertKey
      rw [if_pos (h p (List.mem_cons_self p r))]
    rw [hkey]
    exact ih a (fun q hq => h q (List.mem_cons_of_mem p hq))

theorem insertKeys_fresh (r : Fields) :
    ∀ (a : List String), (r.map Prod.fst).Nodup → (∀ p ∈ r, p.1 ∉ a) →
      insertKeys a r = a ++ r.map Prod.fst := by
  induction r with
  | nil => intro a _ _; simp [insertKeys]
  | cons p r ih =>
    intro a hnd hfresh
    rw [insertKeys_cons]
    have h1 : insertKey a p.1 = a ++ [p.1] := by
      unfold insertKey
      rw [if_neg (hfresh p (List.mem_cons_self p r))]
    rw [List.map_cons] at hnd
    have hnd2 := List.nodup_cons.mp hnd
    have h2 := ih (a ++ [p.1]) hnd2.2 (fun q hq hmem => by
      rcases List.mem_append.mp hmem with hcase | hcase
      · exact hfresh q (List.mem_cons_of_mem p hq) hcase
      · have hq1 : q.1 = p.1 := List.mem_singleton.mp hcase
        exact hnd2.1 (hq1 ▸ List.mem_map_of_mem Prod.fst hq))
    rw [h1, h2]
    simp

theorem foldl_insertKeys_const (rows : List Fields) :
    ∀ (L : List String), (∀ r ∈ rows, ∀ p ∈ r, p.1 ∈ L) →
      rows.foldl insertKeys L = L := by
  induction rows with
  | nil => intro L _; rfl
  | cons r rows ih =>
    intro L h
    rw [List.foldl_cons, insertKeys_of_subset r L (h r (List.mem_cons_self r rows))]
    exact ih L (fun r2 h2 p hp => h r2 (List.mem_cons_of_mem r h2) p hp)

theorem unionKeys_const (r0 : Fields) (rest : List Fields) (L : List String)
    (hnd : L.Nodup) (h : ∀ r ∈ r0 :: rest, r.map Prod.fst = L) :
    unionKeys (r0 :: rest) = L := by
  rw [unionKeys_cons]
  have h0 : r0.map Prod.fst = L := h r0 (List.mem_cons_self r0 rest)
  have h1 : insertKeys [] r0 = [] ++ r0.map Prod.fst :=
    insertKeys_fresh r0 [] (h0 ▸ hnd) (fun p _ => List.not_mem_nil p.1)
  rw [h1, List.nil_append, h0]
  exact foldl_insertKeys_const rest L (fun r hr p hp => by
    rw [← h r (List.mem_cons_of_mem r0 hr)]
    exact List.mem_map_of_mem Prod.fst hp)

theorem lookupCol_map_keys (g : String → List Cell) :
    ∀ (ks : List String) (c : String),
      lookupCol (ks.map (fun k => (k, g k))) c =
        if c ∈ ks then some (g c) else none := by
  intro ks
  induction ks with
  | nil => intro c; simp [lookupCol]
  | cons k ks ih =>
    intro c
    by_cases hkc : k = c
    · subst hkc
      unfold lookupCol
      rw [List.map_cons, List.find?_cons_of_pos _ (by simp)]
      simp
    · unfold lookupCol
      rw [List.map_cons, List.find?_cons_of_neg _ (by simp [hkc])]
      have h2 := ih c
      unfold lookupCol at h2
      rw [h2]
      by_cases hcks : c ∈ ks
      · rw [if_pos hcks, if_pos (List.mem_cons_of_mem k hcks)]
      · rw [if_neg hcks, if_neg (by
          intro hmem
          rcases List.mem_cons.mp hmem with h3 | h3
          · exact hkc h3.symm
          · exact hcks h3)]

theorem lookupCol_colsOfRecords (rows : List Fields) (c : String) :
    lookupCol (colsOfRecords rows) c =
      if c ∈ unionKeys rows then some (rows.map (fun r => lookCell r c)) else none := by
  unfold colsOfRecords
  exact lookupCol_map_keys _ (unionKeys rows) c

theorem colsOfRecords_mem (rows : List Fields) (p : String × List Cell)
    (hp : p ∈ colsOfRecords rows) :
    p.1 ∈ unionKeys rows ∧ p.2 = rows.map (fun r => lookCell r p.1) := by
  unfold colsOfRecords at hp
  obtain ⟨c, hc, heq⟩ := List.mem_map.mp hp
  subst heq
  exact ⟨hc, rfl⟩

theorem mem_colsOfRecords (rows : List Fields) (c : String) (hc : c ∈ unionKeys rows) :
    (c, rows.map (fun r => lookCell r c)) ∈ colsOfRecords rows := by
  unfold colsOfRecords
  exact List.mem_map_of_mem _ hc

theorem colsOfRecords_names (rows : List Fields) :
    (colsOfRecords rows).map Prod.fst = unionKeys rows := by
  unfold colsOfRecords
  rw [List.map_map]
  exact List.map_id (unionKeys rows)

theorem lookCell_str_of_mem_keys (r : Fields) (c : String)
    (h : c ∈ r.map Prod.fst) : ∃ v, lookCell r c = .str v := by
  unfold lookCell
  cases hf : r.find? (fun p => p.1 = c) with
  | none =>
    exfalso
    obtain ⟨p, hp, hpc⟩ := List.mem_map.mp h
    have h2 := List.find?_eq_none.mp hf p hp
    simp [hpc] at h2
  | some p => exact ⟨p.2, rfl⟩

theorem lookCell_nan_of_not_mem (r : Fields) (c : String)
    (h : c ∉ r.map Prod.fst) : lookCell r c = .nan := by
  unfold lookCell
  rw [List.find?_eq_none.mpr]
  intro p hp
  simp only [decide_eq_true_eq]
  intro hpc
  exact h (hpc ▸ List.mem_map_of_mem Prod.fst hp)

theorem castF32Cell_shape (x y : Cell) (h : castF32Cell x = some y) :
    cellF32OrNan y = true := by
  cases x with
  | str s =>
    simp only [castF32Cell, Option.map_eq_some'] at h
    obtain ⟨d, _, rfl⟩ := h
    rfl
  | f32 d => cases h; rfl
  | i32 n => cases h; rfl
  | dt t => simp [castF32Cell] at h
  | bool b => cases h; rfl
  | nan => cases h; rfl

theorem castF32Cell_str_shape (s : String) (y : Cell)
    (h : castF32Cell (.str s) = some y) : cellIsF32 y = true := by
  simp only [castF32Cell, Option.map_eq_some'] at h
  obtain ⟨d, _, rfl⟩ := h
  rfl

theorem castI32Cell_shape (x y : Cell) (h : castI32Cell x = some y) :
    cellIsI32 y = true := by
  cases x with
  | str s =>
    simp only [castI32Cell, Option.map_eq_some'] at h
    obtain ⟨n, _, rfl⟩ := h
    rfl
  | f32 d => cases h; rfl
  | i32 n => cases h; rfl
  | dt t => simp [castI32Cell] at h
  | bool b => cases h; rfl
  | nan => simp [castI32Cell] at h

theorem castCellKind_shape (k : CastKind) (x y : Cell) (h : castCellKind k x = some y) :
    castOutOk k y = true := by
  cases k with
  | f32 => exact castF32Cell_shape x y h
  | i32 => exact castI32Cell_shape x y h

theorem find?_filter_ne (c d : String) (hdc : d ≠ c) :
    ∀ (cols : List (String × List Cell)),
      List.find? (fun p => p.1 = d) (cols.filter (fun p => p.1 ≠ c)) =
        List.find? (fun p => p.1 = d) cols := by
  intro cols
  induction cols with
  | nil => rfl
  | cons p cols ih =>
    rw [List.filter_cons]
    by_cases hpc : p.1 = c
    · rw [if_neg (by simp [hpc])]
      have hpd : ¬ (p.1 = d) := by
        rw [hpc]
        exact fun h => hdc h.symm
      rw [ih, List.find?_cons_of_neg _ (by simp [hpd])]
    · rw [if_pos (by simp [hpc])]
      by_cases hpd : p.1 = d
      · rw [List.find?_cons_of_pos _ (by simp [hpd]),
          List.find?_cons_of_pos _ (by simp [hpd])]
      · rw [List.find?_cons_of_neg _ (by simp [hpd]),
          List.find?_cons_of_neg _ (by simp [hpd]), ih]

theorem lookupCol_removeCol (c d : String) (hdc : d ≠ c)
    (cols : List (String × List Cell)) :
    lookupCol (removeCol c cols) d = lookupCol cols d := by
  unfold lookupCol removeCol
  rw [find?_filter_ne c d hdc cols]

theorem find?_map_set_ne (c d : String) (cells : List Cell) (hdc : d ≠ c) :
    ∀ (cols : List (String × List Cell)),
      List.find? (fun p => p.1 = d)
          (cols.map (fun p => if p.1 = c then (c, cells) else p)) =
        List.find? (fun p => p.1 = d) cols := by
  intro cols
  induction cols with
  | nil => rfl
  | cons p cols ih =>
    rw [List.map_cons]
    by_cases hpc : p.1 = c
    · rw [if_pos hpc]
      have h2 : ¬ (p.1 = d) := by
        rw [hpc]
        exact fun h => hdc h.symm
      rw [List.find?_cons_of_neg _ (by simp only [decide_eq_true_eq]; exact fun h => hdc h.symm),
        List.find?_cons_of_neg _ (by simp [h2]), ih]
    · rw [if_neg hpc]
      by_cases hpd : p.1 = d
      · rw [List.find?_cons_of_pos _ (by simp [hpd]),
          List.find?_cons_of_pos _ (by simp [hpd])]
      · rw [List.find?_cons_of_neg _ (by simp [hpd]),
          List.find?_cons_of_neg _ (by simp [hpd]), ih]

theorem find?_append_single (c d : String) (cells : List Cell) (hdc : d ≠ c) :
    ∀ (cols : List (String × List Cell)),
      List.find? (fun p => p.1 = d) (cols ++ [(c, cells)]) =
        List.find? (fun p => p.1 = d) cols := by
  intro cols
  induction cols with
  | nil =>
    rw [List.nil_append,
      List.find?_cons_of_neg _ (by simp only [decide_eq_true_eq]; exact fun h => hdc h.symm)]
  | cons p cols ih =>
    rw [List.cons_append]
    by_cases hpd : p.1 = d
    · rw [List.find?_cons_of_pos _ (by simp [hpd]),
        List.find?_cons_of_pos _ (by simp [hpd])]
    · rw [List.find?_cons_of_neg _ (by simp [hpd]),
        List.find?_cons_of_neg _ (by simp [hpd]), ih]

theorem lookupCol_setCol_ne (cols : List (String × List Cell)) (c d : String)
    (cells : List Cell) (hdc : d ≠ c) :
    lookupCol (setCol cols c cells) d = lookupCol cols d := by
  unfold setCol
  by_cases hmem : c ∈ cols.map Prod.fst
  · rw [if_pos hmem]
    unfold lookupCol
    rw [find?_map_set_ne c d cells hdc cols]
  · rw [if_neg hmem]
    unfold lookupCol
    rw [find?_append_single c d cells hdc cols]

theorem find?_map_set_self (c : String) (cells : List Cell) :
    ∀ (cols : List (String × List Cell)), c ∈ cols.map Prod.fst →
      List.find? (fun p => p.1 = c)
          (cols.map (fun p => if p.1 = c then (c, cells) else p)) = some (c, cells) := by
  intro cols
  induction cols with
  | nil => intro h; simp at h
  | cons p cols ih =>
    intro hmem
    rw [List.map_cons]
    by_cases hpc : p.1 = c
    · rw [if_pos hpc, List.find?_cons_of_pos _ (by simp)]
    · rw [if_neg hpc, List.find?_cons_of_neg _ (by simp [hpc])]
      apply ih
      simp only [List.map_cons, List.mem_cons] at hmem
      rcases hmem with h | h
      · exact absurd h.symm hpc
      · exact h

theorem find?_append_of_none {p : (String × List Cell) → Bool} :
    ∀ (l1 l2 : List (String × List Cell)), List.find? p l1 = none →
      List.find? p (l1 ++ l2) = List.find? p l2 := by
  intro l1 l2
  induction l1 with
  | nil => intro _; rfl
  | cons x l1 ih =>
    intro h
    rw [List.cons_append]
    cases hpx : p x with
    | true =>
      rw [List.find?_cons_of_pos _ hpx] at h
      cases h
    | false =>
      rw [List.find?_cons_of_neg _ (by simp [hpx])] at h ⊢
      exact ih h

theorem lookupCol_setCol_self (cols : List (String × List Cell)) (c : String)
    (cells : List Cell) :
    lookupCol (setCol cols c cells) c = some cells := by
  unfold setCol
  by_cases hmem : c ∈ cols.map Prod.fst
  · rw [if_pos hmem]
    unfold lookupCol
    rw [find?_map_set_self c cells cols hmem]
    rfl
  · rw [if_neg hmem]
    unfold lookupCol
    have hnone : List.find? (fun p => p.1 = c) cols = none := by
      rw [List.find?_eq_none]
      intro p hp
      simp only [decide_eq_true_eq]
      intro hpc
      exact hmem (hpc ▸ List.mem_map_of_mem Prod.fst hp)
    rw [find?_append_of_none cols [(c, cells)] hnone,
      List.find?_cons_of_pos _ (by simp)]
    rfl

theorem castCols_preserves (k : CastKind) :
    ∀ (names : List String) (cols cols2 : List (String × List Cell)) (c : String),
      castCols k names cols = some cols2 → c ∉ names →
      lookupCol cols2 c = lookupCol cols c := by
  intro names
  induction names with
  | nil =>
    intro cols cols2 c h _
    cases h
    rfl
  | cons c0 rest ih =>
    intro cols cols2 c h hc
    simp only [castCols] at h
    split at h
    · cases h
    · rename_i cells hl
      split at h
      · cases h
      · rename_i cells2 ht
        have hc0 : c ≠ c0 := fun he => hc (he ▸ List.mem_cons_self c0 rest)
        rw [ih _ _ c h (fun hm => hc (List.mem_cons_of_mem c0 hm))]
        exact lookupCol_setCol_ne cols c0 c cells2 hc0

theorem castCols_typed (k : CastKind) :
    ∀ (names : List String) (cols cols2 : List (String × List Cell)) (c : String),
      castCols k names cols = some cols2 → c ∈ names →
      ∃ cells2, lookupCol cols2 c = some cells2 ∧
        ∀ x ∈ cells2, castOutOk k x = true := by
  intro names
  induction names with
  | nil => intro cols cols2 c _ hc; cases hc
  | cons c0 rest ih =>
    intro cols cols2 c h hc
    simp only [castCols] at h
    split at h
    · cases h
    · rename_i cells hl
      split at h
      · cases h
      · rename_i cells2 ht
        by_cases hcr : c ∈ rest
        · exact ih _ _ c h hcr
        · have hc0 : c = c0 := by
            rcases List.mem_cons.mp hc with h2 | h2
            · exact h2
            · exact absurd h2 hcr
          subst hc0
          refine ⟨cells2, ?_, ?_⟩
          · rw [castCols_preserves k rest _ _ c h hcr]
            exact lookupCol_setCol_self cols c cells2
          · intro x hx
            obtain ⟨y, _, hcast⟩ := traverseOpt_mem_some _ _ _ ht x hx
            exact castCellKind_shape k y x hcast

theorem selection_names (cols8 : List (String × List Cell)) :
    ∀ (L : List String) (sel : List (String × List Cell)),
      traverseOpt (selectEntry cols8) L = some sel →
      sel.map Prod.fst = L := by
  intro L
  induction L with
  | nil => intro sel h; cases h; rfl
  | cons c L ih =>
    intro sel h
    simp only [traverseOpt, selectEntry] at h
    cases hl : lookupCol cols8 c with
    | none => rw [hl] at h; simp at h
    | some cells =>
      rw [hl] at h
      simp only [Option.map_some'] at h
      cases hrest : traverseOpt (selectEntry cols8) L with
      | none => rw [hrest] at h; simp at h
      | some sel2 =>
        rw [hrest] at h
        simp only [Option.map_some', Option.some.injEq] at h
        subst h
        simp only [List.map_cons]
        rw [ih sel2 hrest]

theorem selection_lookup (cols8 : List (String × List Cell)) :
    ∀ (L : List String) (sel : List (String × List Cell)),
      traverseOpt (selectEntry cols8) L = some sel →
      ∀ c ∈ L, lookupCol sel c = lookupCol cols8 c := by
  intro L
  induction L with
  | nil => intro sel h c hc; cases hc
  | cons c0 L ih =>
    intro sel h c hc
    simp only [traverseOpt, selectEntry] at h
    cases hl : lookupCol cols8 c0 with
    | none => rw [hl] at h; simp at h
    | some cells0 =>
      rw [hl] at h
      simp only [Option.map_some'] at h
      cases hrest : traverseOpt (selectEntry cols8) L with
      | none => rw [hrest] at h; simp at h
      | some sel2 =>
        rw [hrest] at h
        simp only [Option.map_some', Option.some.injEq] at h
        subst h
        by_cases hcc : c = c0
        · subst hcc
          rw [hl]
          unfold lookupCol
          rw [List.find?_cons_of_pos _ (by simp)]
          rfl
        · unfold lookupCol
          rw [List.find?_cons_of_neg _
            (by simp only [decide_eq_true_eq]; exact fun h => hcc h.symm)]
          have h2 := ih sel2 hrest c (by
            rcases List.mem_cons.mp hc with h3 | h3
            · exact absurd h3 hcc
            · exact h3)
          unfold lookupCol at h2
          exact h2

theorem astypeEntry_fst (spec : List (String × CastKind)) (p q : String × List Cell)
    (h : astypeEntry spec p = some q) : q.1 = p.1 := by
  unfold astypeEntry at h
  split at h
  · rw [Option.map_eq_some'] at h
    obtain ⟨cs, _, rfl⟩ := h
    rfl
  · cases h
    rfl

/-- Inversion of one `astype` column: either the dtype map does not name the
column and it is untouched, or its cells are the elementwise cast of the
input cells with the named dtype. -/
theorem astypeEntry_inv (spec : List (String × CastKind)) (p q : String × List Cell)
    (h : astypeEntry spec p = some q) :
    (spec.find? (fun s => s.1 = p.1) = none ∧ q = p) ∨
    (∃ s, spec.find? (fun s2 => s2.1 = p.1) = some s ∧
      traverseOpt (castCellKind s.2) p.2 = some q.2) := by
  unfold astypeEntry at h
  split at h
  · rename_i s hs
    rw [Option.map_eq_some'] at h
    obtain ⟨cs, hcs, rfl⟩ := h
    exact Or.inr ⟨s, hs, hcs⟩
  · rename_i hs
    cases h
    exact Or.inl ⟨hs, rfl⟩

theorem astypeDict_names (spec : List (String × CastKind))
    (cols cols2 : List (String × List Cell)) (h : astypeDict spec cols = some cols2) :
    cols2.map Prod.fst = cols.map Prod.fst := by
  unfold astypeDict at h
  split at h
  · exact traverseOpt_fst_eq (astypeEntry_fst spec) cols cols2 h
  · cases h

/-- Every output column of a successful `astype` comes from the input column
in the same position. -/
theorem astypeDict_mem (spec : List (String × CastKind))
    (cols cols2 : List (String × List Cell)) (h : astypeDict spec cols = some cols2)
    (q : String × List Cell) (hq : q ∈ cols2) :
    ∃ p ∈ cols, astypeEntry spec p = some q := by
  unfold astypeDict at h
  split at h
  · exact traverseOpt_mem_some _ _ _ h q hq
  · cases h

/-! ## Shaping-layer helper theorems -/

theorem map_fst_rename (g : String → String) (l : List (String × List Cell)) :
    (l.map (fun p => (g p.1, p.2))).map Prod.fst = (l.map Prod.fst).map g := by
  induction l with
  | nil => rfl
  | cons p l ih => simp [ih]

theorem map_fst_filter_ne (c : String) (l : List (String × List Cell)) :
    (l.filter (fun p => p.1 ≠ c)).map Prod.fst =
      (l.map Prod.fst).filter (fun x => x ≠ c) := by
  induction l with
  | nil => rfl
  | cons p l ih =>
    rw [List.filter_cons, List.map_cons, List.filter_cons]
    by_cases hpc : p.1 = c
    · rw [if_neg (by simp [hpc]), if_neg (by simp [hpc]), ih]
    · rw [if_pos (by simp [hpc]), if_pos (by simp [hpc]), List.map_cons, ih]

theorem unionKeys_schema (cd : List (String × Fields)) (hne : cd ≠ [])
    (hs : ∀ r ∈ cd, r.2.map Prod.fst = RAW_DAILY_FIELDS) :
    unionKeys (cd.map Prod.snd) = RAW_DAILY_FIELDS := by
  cases cd with
  | nil => exact absurd rfl hne
  | cons r0 rest =>
    rw [List.map_cons]
    refine unionKeys_const r0.2 (rest.map Prod.snd) RAW_DAILY_FIELDS (by decide) ?_
    intro r hr
    rcases List.mem_cons.mp hr with rfl | hmem
    · exact hs r0 (List.mem_cons_self r0 rest)
    · obtain ⟨q, hq, rfl⟩ := List.mem_map.mp hmem
      exact hs q (List.mem_cons_of_mem r0 hq)

/-- C7 helper: every successful `_candle_data_to_df` cell is float32 or NaN. -/
theorem candle_df_cells_f32OrNan (cd : List (String × Fields))
    (fmt : Option (List String)) (df : TSFrame)
    (h : candle_data_to_df cd fmt = .ok df) :
    (df.cols.all (fun p => p.2.all cellF32OrNan)) = true := by
  simp only [candle_data_to_df] at h
  by_cases hlen : cd.length = 0
  · rw [if_pos hlen] at h
    injection h with h2
    subst h2
    rfl
  · rw [if_neg hlen] at h
    split at h
    · cases h
    · rename_i idx hidx
      split at h
      · cases h
      · rename_i cols3 hcast
        injection h with h2
        subst h2
        rw [List.all_eq_true]
        intro p hp
        obtain ⟨p0, hp0, hfp0⟩ := traverseOpt_mem_some _ _ _ hcast p hp
        unfold castColEntry at hfp0
        rw [Option.map_eq_some'] at hfp0
        obtain ⟨cs, hcs, rfl⟩ := hfp0
        rw [List.all_eq_true]
        intro x hx
        obtain ⟨y, _, hy⟩ := traverseOpt_mem_some _ _ _ hcs x hx
        exact castF32Cell_shape y x hy

/-- C7 helper: a value that fails the float cast (in any kept column) makes
the whole normalization raise. -/
theorem candle_df_cast_failure (cd : List (String × Fields)) (fmt : Option (List String))
    (key : String) (fields : Fields) (f : String)
    (hmem : (key, fields) ∈ cd) (hf : f ≠ "5. volume")
    (hcast : castF32Cell (lookCell fields f) = none) :
    exceptIsOk (candle_data_to_df cd fmt) = false := by
  have hkey : f ∈ fields.map Prod.fst := by
    by_contra hnot
    rw [lookCell_nan_of_not_mem fields f hnot] at hcast
    simp [castF32Cell] at hcast
  have hunion : f ∈ unionKeys (cd.map Prod.snd) := by
    obtain ⟨p, hp, hpf⟩ := List.mem_map.mp hkey
    exact hpf ▸ mem_unionKeys _ fields p (List.mem_map_of_mem Prod.snd hmem) hp
  have hcol : (f, (cd.map Prod.snd).map (fun r => lookCell r f)) ∈
      colsOfRecords (cd.map Prod.snd) := mem_colsOfRecords _ f hunion
  have hcol1 : (f, (cd.map Prod.snd).map (fun r => lookCell r f)) ∈
      (colsOfRecords (cd.map Prod.snd)).filter (fun p => p.1 ≠ "5. volume") :=
    List.mem_filter.mpr ⟨hcol, by simp [hf]⟩
  have hcol2 : (renameWith (fmt.getD RAW_OHLC_FMT) f,
      (cd.map Prod.snd).map (fun r => lookCell r f)) ∈
      ((colsOfRecords (cd.map Prod.snd)).filter (fun p => p.1 ≠ "5. volume")).map
        (fun p => (renameWith (fmt.getD RAW_OHLC_FMT) p.1, p.2)) :=
    List.mem_map_of_mem _ hcol1
  have hcellmem : lookCell fields f ∈ (cd.map Prod.snd).map (fun r => lookCell r f) :=
    List.mem_map_of_mem _ (List.mem_map_of_mem Prod.snd hmem)
  have hcolfail : castColEntry (renameWith (fmt.getD RAW_OHLC_FMT) f,
      (cd.map Prod.snd).map (fun r => lookCell r f)) = none := by
    unfold castColEntry castColF32
    rw [traverseOpt_none_of_mem castF32Cell _ _ hcellmem hcast]
    rfl
  have htrav : traverseOpt castColEntry
      (((colsOfRecords (cd.map Prod.snd)).filter (fun p => p.1 ≠ "5. volume")).map
        (fun p => (renameWith (fmt.getD RAW_OHLC_FMT) p.1, p.2))) = none :=
    traverseOpt_none_of_mem _ _ _ hcol2 hcolfail
  simp only [candle_data_to_df]
  rw [if_neg (by
    intro h0
    rw [List.length_eq_zero] at h0
    subst h0
    cases hmem)]
  split
  · rfl
  · rename_i idx hidx
    rw [htrav]
    rfl

/-- C8 helper: under the vendor daily schema the new normalizer returns
exactly the four canonical OHLC columns (volume dropped). -/
theorem candle_df_schema_columns (cd : List (String × Fields)) (df : TSFrame)
    (hs : ∀ r ∈ cd, r.2.map Prod.fst = RAW_DAILY_FIELDS)
    (h : candle_data_to_df cd none = .ok df) :
    df.cols.map Prod.fst = CANON_OHLC := by
  simp only [candle_data_to_df] at h
  by_cases hlen : cd.length = 0
  · rw [if_pos hlen] at h
    injection h with h2
    subst h2
    rfl
  · rw [if_neg hlen] at h
    split at h
    · cases h
    · rename_i idx hidx
      split at h
      · cases h
      · rename_i cols3 hcast
        injection h with h2
        subst h2
        have hfst : ∀ p q, castColEntry p = some q → q.1 = p.1 := by
          intro p q hq
          unfold castColEntry at hq
          rw [Option.map_eq_some'] at hq
          obtain ⟨cs, _, rfl⟩ := hq
          rfl
        have hnames := traverseOpt_fst_eq hfst _ _ hcast
        rw [map_fst_rename, map_fst_filter_ne, colsOfRecords_names] at hnames
        rw [unionKeys_schema cd (fun h0 => hlen (h0 ▸ rfl)) hs] at hnames
        rw [hnames]
        rfl

theorem schema_col_cells_str (data : List (String × Fields)) (c : String)
    (hs : ∀ r ∈ data, r.2.map Prod.fst = RAW_DAILY_FIELDS)
    (hc : c ∈ RAW_DAILY_FIELDS) :
    ∀ y ∈ (data.map Prod.snd).map (fun r => lookCell r c), ∃ v, y = Cell.str v := by
  intro y hy
  obtain ⟨r, hr, rfl⟩ := List.mem_map.mp hy
  obtain ⟨rr, hrr, rfl⟩ := List.mem_map.mp hr
  have hkeys := hs rr hrr
  have hmem : c ∈ rr.2.map Prod.fst := by
    rw [hkeys]
    exact hc
  obtain ⟨v, hv⟩ := lookCell_str_of_mem_keys rr.2 c hmem
  exact ⟨v, hv⟩

theorem traverseOpt_f32_strict (cells q2 : List Cell)
    (hstr : ∀ y ∈ cells, ∃ v, y = Cell.str v)
    (h : traverseOpt castF32Cell cells = some q2) :
    ∀ x ∈ q2, cellIsF32 x = true := by
  intro x hx
  obtain ⟨y, hy, hyx⟩ := traverseOpt_mem_some _ _ _ h x hx
  obtain ⟨v, rfl⟩ := hstr y hy
  exact castF32Cell_str_shape v x hyx

theorem astypeEntry_named (spec : List (String × CastKind)) (p q : String × List Cell)
    (s : String × CastKind)
    (hfind : spec.find? (fun s2 => s2.1 = p.1) = some s)
    (h : astypeEntry spec p = some q) :
    q.1 = p.1 ∧ traverseOpt (castCellKind s.2) p.2 = some q.2 := by
  unfold astypeEntry at h
  rw [hfind] at h
  rw [Option.map_eq_some'] at h
  obtain ⟨cs, hcs, rfl⟩ := h
  exact ⟨rfl, hcs⟩

/-- C7/C8 helper: under the vendor daily schema the old client's daily
normalizer returns the five canonical columns with price cells strictly
float32 and volume cells strictly int32. -/
theorem old_daily_schema_typed (data : List (String × Fields)) (df : TSFrame)
    (hs : ∀ r ∈ data, r.2.map Prod.fst = RAW_DAILY_FIELDS)
    (h : get_time_series_daily_df data = .ok df) :
    tsDailyWellTyped df = true := by
  have hne : data ≠ [] := by
    rintro rfl
    simp [get_time_series_daily_df, astypeDict, traverseOpt, colsOfRecords,
      unionKeys, insertKeys, DAILY_ASTYPE] at h
  simp only [get_time_series_daily_df] at h
  split at h
  · cases h
  · rename_i idx hidx
    split at h
    · cases h
    · rename_i cols2 hast
      injection h with h2
      subst h2
      have hunion := unionKeys_schema data hne hs
      have hnames2 : cols2.map Prod.fst = ["Open", "High", "Low", "Close", "Volume"] := by
        rw [astypeDict_names DAILY_ASTYPE _ cols2 hast, map_fst_rename,
          colsOfRecords_names, hunion]
        rfl
      unfold tsDailyWellTyped
      rw [Bool.and_eq_true]
      constructor
      · rw [hnames2]
        rfl
      · rw [List.all_eq_true]
        intro q hq
        obtain ⟨p, hp, hentry⟩ := astypeDict_mem DAILY_ASTYPE _ cols2 hast q hq
        obtain ⟨p0, hp0, hrename⟩ := List.mem_map.mp hp
        obtain ⟨c, cells⟩ := p0
        obtain ⟨hc_union, hcells⟩ := colsOfRecords_mem _ _ hp0
        rw [hunion] at hc_union
        subst hrename
        rcases (by simpa [RAW_DAILY_FIELDS] using hc_union :
            c = "1. open" ∨ c = "2. high" ∨ c = "3. low" ∨ c = "4. close" ∨
              c = "5. volume") with rfl | rfl | rfl | rfl | rfl
        · have hq1b : q.1 = "Open" := (astypeEntry_fst _ _ _ hentry).trans rfl
          obtain ⟨_, hq2⟩ := astypeEntry_named DAILY_ASTYPE (renameDaily "1. open", cells) q
            ("Open", CastKind.f32) rfl hentry
          rw [if_neg (by rw [hq1b]; decide), List.all_eq_true]
          exact traverseOpt_f32_strict _ q.2
            (hcells ▸ schema_col_cells_str data "1. open" hs (by decide)) hq2
        · have hq1b : q.1 = "High" := (astypeEntry_fst _ _ _ hentry).trans rfl
          obtain ⟨_, hq2⟩ := astypeEntry_named DAILY_ASTYPE (renameDaily "2. high", cells) q
            ("High", CastKind.f32) rfl hentry
          rw [if_neg (by rw [hq1b]; decide), List.all_eq_true]
          exact traverseOpt_f32_strict _ q.2
            (hcells ▸ schema_col_cells_str data "2. high" hs (by decide)) hq2
        · have hq1b : q.1 = "Low" := (astypeEntry_fst _ _ _ hentry).trans rfl
          obtain ⟨_, hq2⟩ := astypeEntry_named DAILY_ASTYPE (renameDaily "3. low", cells) q
            ("Low", CastKind.f32) rfl hentry
          rw [if_neg (by rw [hq1b]; decide), List.all_eq_true]
          exact traverseOpt_f32_strict _ q.2
            (hcells ▸ schema_col_cells_str data "3. low" hs (by decide)) hq2
        · have hq1b : q.1 = "Close" := (astypeEntry_fst _ _ _ hentry).trans rfl
          obtain ⟨_, hq2⟩ := astypeEntry_named DAILY_ASTYPE (renameDaily "4. close", cells) q
            ("Close", CastKind.f32) rfl hentry
          rw [if_neg (by rw [hq1b]; decide), List.all_eq_true]
          exact traverseOpt_f32_strict _ q.2
            (hcells ▸ schema_col_cells_str data "4. close" hs (by decide)) hq2
        · have hq1b : q.1 = "Volume" := (astypeEntry_fst _ _ _ hentry).trans rfl
          obtain ⟨_, hq2⟩ := astypeEntry_named DAILY_ASTYPE (renameDaily "5. volume", cells) q
            ("Volume", CastKind.i32) rfl hentry
          rw [if_pos hq1b, List.all_eq_true]
          intro x hx
          obtain ⟨y, hy, hyx⟩ := traverseOpt_mem_some _ _ _ hq2 x hx
          exact castI32Cell_shape y x hyx

/-- C7 helper: under the vendor daily schema, a volume value that fails the
int cast makes the old daily normalizer raise. -/
theorem old_daily_volume_cast_failure (data : List (String × Fields))
    (key : String) (fields : Fields)
    (hmem : (key, fields) ∈ data)
    (hs : ∀ r ∈ data, r.2.map Prod.fst = RAW_DAILY_FIELDS)
    (hcast : castI32Cell (lookCell fields "5. volume") = none) :
    exceptIsOk (get_time_series_daily_df data) = false := by
  have hkeys := hs (key, fields) hmem
  have hvol : "5. volume" ∈ fields.map Prod.fst := by
    have h2 : fields.map Prod.fst = RAW_DAILY_FIELDS := hkeys
    rw [h2]
    decide
  have hunion : "5. volume" ∈ unionKeys (data.map Prod.snd) := by
    obtain ⟨p, hp, hpf⟩ := List.mem_map.mp hvol
    exact hpf ▸ mem_unionKeys _ fields p (List.mem_map_of_mem Prod.snd hmem) hp
  have hcol : ("5. volume", (data.map Prod.snd).map (fun r => lookCell r "5. volume")) ∈
      colsOfRecords (data.map Prod.snd) := mem_colsOfRecords _ _ hunion
  have hcol1 : (renameDaily "5. volume",
      (data.map Prod.snd).map (fun r => lookCell r "5. volume")) ∈
      (colsOfRecords (data.map Prod.snd)).map (fun p => (renameDaily p.1, p.2)) :=
    List.mem_map_of_mem _ hcol
  have hcellmem : lookCell fields "5. volume" ∈
      (data.map Prod.snd).map (fun r => lookCell r "5. volume") :=
    List.mem_map_of_mem _ (List.mem_map_of_mem Prod.snd hmem)
  have htravfail : traverseOpt (castCellKind CastKind.i32)
      ((data.map Prod.snd).map (fun r => lookCell r "5. volume")) = none :=
    traverseOpt_none_of_mem _ _ _ hcellmem hcast
  have hfail : astypeEntry DAILY_ASTYPE (renameDaily "5. volume",
      (data.map Prod.snd).map (fun r => lookCell r "5. volume")) = none := by
    have hfind : DAILY_ASTYPE.find? (fun s => s.1 = (renameDaily "5. volume",
        (data.map Prod.snd).map (fun r => lookCell r "5. volume")).1) =
        some ("Volume", CastKind.i32) := rfl
    unfold astypeEntry
    rw [hfind]
    simp only [htravfail, Option.map_none']
  have hdict : astypeDict DAILY_ASTYPE
      ((colsOfRecords (data.map Prod.snd)).map (fun p => (renameDaily p.1, p.2))) =
        none := by
    unfold astypeDict
    split
    · exact traverseOpt_none_of_mem _ _ _ hcol1 hfail
    · rfl
  simp only [get_time_series_daily_df]
  split
  · rfl
  · rename_i idx hidx
    rw [hdict]
    rfl

/-! ## C7: fixed-width numeric casts -/

/-- C7 (confirmed): (1) every cell of a successful `_candle_data_to_df`
normalization is float32 (or NaN for a ragged record) — no strings remain;
(2) under the vendor daily schema, the old daily normalizer returns exactly
the canonical five columns, price cells strictly float32 and volume cells
strictly int32; (3) a value failing the float cast in any kept column makes
`_candle_data_to_df` raise rather than drop or keep the row; (4) a volume
value failing the int cast makes the old daily normalizer raise. -/
theorem numeric_casts_fixed_width :
    (∀ cd fmt df, candle_data_to_df cd fmt = .ok df →
      (df.cols.all (fun p => p.2.all cellF32OrNan)) = true) ∧
    (∀ data df, (∀ r ∈ data, r.2.map Prod.fst = RAW_DAILY_FIELDS) →
      get_time_series_daily_df data = .ok df → tsDailyWellTyped df = true) ∧
    (∀ cd fmt key fields f, (key, fields) ∈ cd → f ≠ "5. volume" →
      castF32Cell (lookCell fields f) = none →
      exceptIsOk (candle_data_to_df cd fmt) = false) ∧
    (∀ data key fields, (key, fields) ∈ data →
      (∀ r ∈ data, r.2.map Prod.fst = RAW_DAILY_FIELDS) →
      castI32Cell (lookCell fields "5. volume") = none →
      exceptIsOk (get_time_series_daily_df data) = false) :=
  ⟨candle_df_cells_f32OrNan,
   old_daily_schema_typed,
   candle_df_cast_failure,
   fun data key fields hmem hs hcast =>
     old_daily_volume_cast_failure data key fields hmem hs hcast⟩

/-- Witness for C7 at concrete payloads: a well-formed daily payload
normalizes fully typed in both normalizers, and payloads with an
unparseable price (resp. volume) value raise. -/
theorem numeric_casts_fixed_width_witness :
    (dfCandles.cols.all (fun p => p.2.all cellF32OrNan)) = true ∧
    tsDailyWellTyped dfDaily = true ∧
    exceptIsOk (candle_data_to_df badCandles none) = false ∧
    exceptIsOk (get_time_series_daily_df badVolCandles) = false :=
  ⟨numeric_casts_fixed_width.1 dailyCandles none dfCandles rfl,
   numeric_casts_fixed_width.2.1 dailyCandles dfDaily (by decide) rfl,
   numeric_casts_fixed_width.2.2.1 badCandles none "2024-01-01" badFields
     "1. open" (by decide) (by decide) rfl,
   numeric_casts_fixed_width.2.2.2 badVolCandles "2024-01-01" badVolFields
     (by decide) (by decide) rfl⟩

/-! ## C8: volume handling of daily requests -/

/-- C8 (counterexample): a successful daily normalization through the
current handler's `_candle_data_to_df` has no Volume column at all — the
`5. volume` field of every record is dropped, and the resulting columns are
exactly Open/High/Low/Close. -/
theorem volume_dropped_counterexample :
    dailyCandles.map (fun r => r.2.map Prod.fst) =
      [RAW_DAILY_FIELDS, RAW_DAILY_FIELDS] ∧
    candle_data_to_df dailyCandles none = .ok dfCandles ∧
    dfCandles.cols.map Prod.fst = ["Open", "High", "Low", "Close"] ∧
    "Volume" ∉ dfCandles.cols.map Prod.fst :=
  ⟨rfl, rfl, rfl, by decide⟩

/-- C8 (corrected): the current shaping layer discards volume — a
successful daily normalization returns exactly the four float32 OHLC
columns and no Volume column; only the old client's `get_time_series_daily`
additionally returns `Volume` as a 32-bit integer column next to the
float32 prices. -/
theorem daily_volume_handling :
    (∀ cd df, (∀ r ∈ cd, r.2.map Prod.fst = RAW_DAILY_FIELDS) →
      candle_data_to_df cd none = .ok df →
      df.cols.map Prod.fst = ["Open", "High", "Low", "Close"] ∧
      "Volume" ∉ df.cols.map Prod.fst) ∧
    (∀ data df, (∀ r ∈ data, r.2.map Prod.fst = RAW_DAILY_FIELDS) →
      get_time_series_daily_df data = .ok df → tsDailyWellTyped df = true) := by
  constructor
  · intro cd df hs h
    have hnames := candle_df_schema_columns cd df hs h
    refine ⟨hnames, ?_⟩
    rw [hnames]
    decide
  · intro data df hs h
    exact old_daily_schema_typed data df hs h

/-- Witness for the corrected C8 statement at a concrete daily payload. -/
theorem daily_volume_handling_witness :
    (dfCandles.cols.map Prod.fst = ["Open", "High", "Low", "Close"] ∧
      "Volume" ∉ dfCandles.cols.map Prod.fst) ∧
    tsDailyWellTyped dfDaily = true :=
  ⟨daily_volume_handling.1 dailyCandles dfCandles (by decide) rfl,
   daily_volume_handling.2 dailyCandles dfDaily (by decide) rfl⟩

/-! ## C9: historical options shaping -/

/-- C9 (confirmed): every successful options shaping returns a table
indexed by the records' contractID values whose columns are exactly
`OPTIONS_COLUMNS`; `is_call` is derived elementwise as `type == "call"`
from the records' type values, the source `type` column is gone, the float
column set is float32 (NaN for ragged records) and the int column set is
strictly int32. -/
theorem historical_options_shape (records : List Fields) (df : OptFrame)
    (h : get_historical_options_df records = .ok df) :
    OptionsShapeSpec records df := by
  simp only [get_historical_options_df] at h
  split at h
  · cases h
  rename_i idx hcid
  split at h
  · cases h
  rename_i symCells hsym
  split at h
  · cases h
  rename_i expCells hexp
  split at h
  · cases h
  rename_i expCells2 hexp2
  split at h
  · cases h
  rename_i dateCells hdate
  split at h
  · cases h
  rename_i dateCells2 hdate2
  split at h
  · cases h
  rename_i cols5 hcf
  split at h
  · cases h
  rename_i cols6 hci
  split at h
  · cases h
  rename_i typeCells htype
  split at h
  · cases h
  rename_i sel hsel
  injection h with h2
  subst h2
  have hfloatsub : ∀ x ∈ FLOAT_COLS, x ∈ OPTIONS_COLUMNS := by decide
  have hintsub : ∀ x ∈ INT_COLS, x ∈ OPTIONS_COLUMNS := by decide
  have hfloatdisj : ∀ x ∈ FLOAT_COLS, x ∉ INT_COLS := by decide
  have hfloatne : ∀ x ∈ FLOAT_COLS, x ≠ "is_call" ∧ x ≠ "type" := by decide
  have hintne : ∀ x ∈ INT_COLS, x ≠ "is_call" ∧ x ≠ "type" := by decide
  rw [lookupCol_colsOfRecords] at hcid
  split at hcid
  · injection hcid with hidx2
    subst hidx2
    rw [castCols_preserves CastKind.i32 INT_COLS _ cols6 "type" hci (by decide),
      castCols_preserves CastKind.f32 FLOAT_COLS _ cols5 "type" hcf (by decide),
      lookupCol_setCol_ne _ "date" "type" dateCells2 (by decide),
      lookupCol_setCol_ne _ "expiration" "type" expCells2 (by decide),
      lookupCol_removeCol "symbol" "type" (by decide) _,
      lookupCol_removeCol "contractID" "type" (by decide) _,
      lookupCol_colsOfRecords] at htype
    split at htype
    · injection htype with ht2
      subst ht2
      have hnames : sel.map Prod.fst = OPTIONS_COLUMNS := selection_names _ _ _ hsel
      unfold OptionsShapeSpec
      refine ⟨hnames, rfl, ?_, ?_, ?_, ?_⟩
      · -- is_call column derived from the type column
        dsimp only
        rw [selection_lookup _ OPTIONS_COLUMNS sel hsel "is_call" (by decide),
          lookupCol_removeCol "type" "is_call" (by decide),
          lookupCol_setCol_self, List.map_map]
        rfl
      · -- float columns
        dsimp only
        rw [List.all_eq_true]
        intro c hc
        obtain ⟨cells2, hlook5, htyped⟩ :=
          castCols_typed CastKind.f32 FLOAT_COLS _ cols5 c hcf hc
        have hchain : lookupCol sel c = some cells2 := by
          rw [selection_lookup _ OPTIONS_COLUMNS sel hsel c (hfloatsub c hc),
            lookupCol_removeCol "type" c (hfloatne c hc).2,
            lookupCol_setCol_ne _ "is_call" c _ (hfloatne c hc).1,
            castCols_preserves CastKind.i32 INT_COLS cols5 cols6 c hci
              (hfloatdisj c hc)]
          exact hlook5
        simp only [hchain]
        rw [List.all_eq_true]
        intro x hx
        exact htyped x hx
      · -- int columns
        dsimp only
        rw [List.all_eq_true]
        intro c hc
        obtain ⟨cells2, hlook6, htyped⟩ :=
          castCols_typed CastKind.i32 INT_COLS cols5 cols6 c hci hc
        have hchain : lookupCol sel c = some cells2 := by
          rw [selection_lookup _ OPTIONS_COLUMNS sel hsel c (hintsub c hc),
            lookupCol_removeCol "type" c (hintne c hc).2,
            lookupCol_setCol_ne _ "is_call" c _ (hintne c hc).1]
          exact hlook6
        simp only [hchain]
        rw [List.all_eq_true]
        intro x hx
        exact htyped x hx
      · -- the type column is gone
        dsimp only
        rw [hnames]
        decide
    · cases htype
  · cases hcid

/-- Witness for C9 at a concrete full contract record. -/
theorem historical_options_shape_witness : OptionsShapeSpec optRecords dfOptions :=
  historical_options_shape optRecords dfOptions rfl
